import Mathlib

/-!
Verification of the schedule evaluator (`strands_coder/tools/scheduler.py`) and
the project-board synchronizer (`strands_coder/tools/projects.py`).

Python strings are modelled as `List Char`; Python `int(s)` is modelled on
unsigned decimal digit strings (`parseNat`), which is the only form the
scheduler's cron grammar can produce; Python exceptions are modelled by
`Option` (`none` = the call raised).  Python dicts are modelled as association
lists whose update operations preserve insertion order, exactly as CPython
dicts do.
-/

namespace StrandsCoder

/-! ## Python string primitives -/

/-- Python `c in s` for a single-character needle. -/
def pyContains (c : Char) : List Char → Bool
  | [] => false
  | x :: xs => x == c || pyContains c xs

/-- Split a character list at every character satisfying `p`
(Python `str.split(sep)` keeps empty pieces; `str.split()` drops them). -/
def splitP (p : Char → Bool) : List Char → List (List Char)
  | [] => [[]]
  | c :: cs =>
    let r := splitP p cs
    if p c then [] :: r
    else
      match r with
      | [] => [[c]]
      | h :: t => (c :: h) :: t

/-- Python `s.split(sep)` for a one-character separator. -/
def splitOnChar (sep : Char) (s : List Char) : List (List Char) :=
  splitP (fun c => c == sep) s

/-- Python whitespace test (the characters relevant to cron strings). -/
def isSpace (c : Char) : Bool :=
  c == ' ' || c == '\t' || c == '\n' || c == '\r'

/-- Python `s.split()` (split on whitespace runs, dropping empty pieces;
subsumes the preceding `strip()` in `_parse_cron`). -/
def splitWhitespace (s : List Char) : List (List Char) :=
  (splitP isSpace s).filter (fun w => w ≠ [])

/-- Python `int(s)` on an unsigned decimal digit string; `none` models the
`ValueError` raised on any other input. -/
def parseNat (s : List Char) : Option Nat :=
  if s ≠ [] ∧ s.all Char.isDigit then
    some (s.foldl (fun acc c => acc * 10 + (c.toNat - 48)) 0)
  else none

/-- Python `[int(v) for v in parts]`: all conversions run before membership
is tested, so one failure poisons the whole list. -/
def parseAll : List (List Char) → Option (List Nat)
  | [] => some []
  | s :: rest =>
    match parseNat s, parseAll rest with
    | some n, some l => some (n :: l)
    | _, _ => none

/-- Python `value in l`. -/
def pyElem (v : Nat) : List Nat → Bool
  | [] => false
  | x :: xs => v == x || pyElem v xs

/-! ## Cron field matching (`_cron_field_matches`)

The Python function raises (`int` failures, unpacking failures, `% 0`);
`none` models a raised exception, `some b` a returned boolean.  Branch
order and the short-circuit evaluation of the chained comparisons
`int(start) <= value <= int(end)` are preserved. -/

/-- Python `field.startswith("*/")`. -/
def isStepField : List Char → Bool
  | a :: b :: _ => a == '*' && b == '/'
  | _ => false

/-- The `*/N` branch: `int(field[2:])`, then `value % step == 0`
(`% 0` raises). -/
def stepBranch (field : List Char) (value : Nat) : Option Bool :=
  match parseNat (field.drop 2) with
  | none => none
  | some 0 => none
  | some n => some (value % n == 0)

/-- The `A-B` branch: unpack `field.split("-")` into exactly two parts,
then the chained comparison `int(start) <= value <= int(end)` with its
left-to-right short-circuit evaluation. -/
def rangeBranch (field : List Char) (value : Nat) : Option Bool :=
  match splitOnChar '-' field with
  | [s1, s2] =>
    match parseNat s1 with
    | none => none
    | some a =>
      if a ≤ value then
        match parseNat s2 with
        | none => none
        | some b => some (value ≤ b)
      else some false
  | _ => none

/-- The `A-B/N` branch: `int(step)` only runs inside the in-range case, and
the chained range comparison short-circuits as in `rangeBranch`. -/
def rangeStepBranch (field : List Char) (value : Nat) : Option Bool :=
  match splitOnChar '/' field with
  | [rangePart, stepS] =>
    match splitOnChar '-' rangePart with
    | [s1, s2] =>
      match parseNat s1 with
      | none => none
      | some a =>
        if a ≤ value then
          match parseNat s2 with
          | none => none
          | some b =>
            if value ≤ b then
              match parseNat stepS with
              | none => none
              | some 0 => none
              | some n => some ((value - a) % n == 0)
            else some false
        else some false
    | _ => none
  | _ => none

/-- The `A,B,C` branch: `value in [int(v) for v in field.split(",")]`. -/
def listBranch (field : List Char) (value : Nat) : Option Bool :=
  match parseAll (splitOnChar ',' field) with
  | none => none
  | some l => some (pyElem value l)

/-- The bare-integer branch: `int(field) == value`. -/
def exactBranch (field : List Char) (value : Nat) : Option Bool :=
  match parseNat field with
  | none => none
  | some n => some (n == value)

/-- The matcher `_cron_field_matches(field, value)`: the branch dispatch mirrors the
Python `if` cascade (each branch `return`s). -/
def cronFieldMatches (field : List Char) (value : Nat) : Option Bool :=
  if field = ['*'] then some true
  else if isStepField field then stepBranch field value
  else if pyContains '-' field && !pyContains '/' field then
    rangeBranch field value
  else if pyContains '-' field && pyContains '/' field then
    rangeStepBranch field value
  else if pyContains ',' field then listBranch field value
  else exactBranch field value

/-! ## Datetimes

Naive UTC datetimes at second granularity (`datetime.utcnow()` carries
microseconds, but every claim is stated at whole-minute boundaries). -/

structure PyDateTime where
  year : Int
  month : Nat
  day : Nat
  hour : Nat
  minute : Nat
  second : Nat
deriving DecidableEq

/-- Proleptic-Gregorian day count from 1970-01-01 (the arithmetic underlying
`datetime` subtraction and `weekday()`). -/
def daysFromCivil (y : Int) (m : Nat) (d : Nat) : Int :=
  let y' : Int := if m ≤ 2 then y - 1 else y
  let era : Int := y' / 400
  let yoe : Int := y' - era * 400
  let mp : Nat := (m + 9) % 12
  let doy : Int := (153 * (mp : Int) + 2) / 5 + (d : Int) - 1
  let doe : Int := yoe * 365 + yoe / 4 - yoe / 100 + doy
  era * 146097 + doe - 719468

/-- Seconds since the epoch of a naive UTC datetime; differences of this
quantity model `(a - b).total_seconds()`. -/
def epochSeconds (dt : PyDateTime) : Int :=
  daysFromCivil dt.year dt.month dt.day * 86400
    + (dt.hour : Int) * 3600 + (dt.minute : Int) * 60 + (dt.second : Int)

/-- Python `dt.weekday()`: 0 = Monday (1970-01-01 was a Thursday). -/
def pyWeekday (dt : PyDateTime) : Nat :=
  ((daysFromCivil dt.year dt.month dt.day + 3) % 7).toNat

/-! ## `datetime.fromisoformat` on the scheduler's documented format

`run_at` strings are the documented `YYYY-MM-DDTHH:MM:SS` (a space separator
is also accepted), optionally followed by a `±HH:MM` offset; the scheduler
first rewrites `Z` to `+00:00` and, when an offset is present, drops it
(`replace(tzinfo=None)`), so the wall-clock fields are read as UTC. -/

/-- Two decimal digits. -/
def parse2 : List Char → Option (Nat × List Char)
  | a :: b :: rest =>
    if a.isDigit && b.isDigit then
      some ((a.toNat - 48) * 10 + (b.toNat - 48), rest)
    else none
  | _ => none

/-- Four decimal digits. -/
def parse4 : List Char → Option (Nat × List Char)
  | a :: b :: c :: d :: rest =>
    if a.isDigit && b.isDigit && c.isDigit && d.isDigit then
      some (((a.toNat - 48) * 10 + (b.toNat - 48)) * 100
              + (c.toNat - 48) * 10 + (d.toNat - 48), rest)
    else none
  | _ => none

def expectChar (c : Char) : List Char → Option (List Char)
  | x :: rest => if x == c then some rest else none
  | [] => none

/-- The `T` (or space) separating date and time. -/
def expectSep : List Char → Option (List Char)
  | x :: rest => if x == 'T' || x == ' ' then some rest else none
  | [] => none

def isLeapYear (y : Int) : Bool :=
  y % 4 == 0 && (y % 100 != 0 || y % 400 == 0)

def daysInMonth (y : Int) (m : Nat) : Nat :=
  if m = 2 then (if isLeapYear y then 29 else 28)
  else if m = 4 ∨ m = 6 ∨ m = 9 ∨ m = 11 then 30
  else 31

/-- A syntactically valid trailing utc-offset (or nothing).  The offset's
value is discarded by the scheduler (`tzinfo=None`). -/
def validOffset : List Char → Bool
  | [] => true
  | sign :: rest =>
    (sign == '+' || sign == '-') &&
      (match parse2 rest with
       | some (h, rest2) =>
         (match expectChar ':' rest2 with
          | some rest3 =>
            (match parse2 rest3 with
             | some (mi, rest4) => h ≤ 23 && mi ≤ 59 && rest4.isEmpty
             | none => false)
          | none => false)
       | none => false)

/-- Python `datetime.fromisoformat` restricted to the scheduler's documented shape,
with the calendar validation `fromisoformat` performs. -/
def fromIso (s : List Char) : Option PyDateTime :=
  match parse4 s with
  | none => none
  | some (y, r1) =>
  match expectChar '-' r1 with
  | none => none
  | some r2 =>
  match parse2 r2 with
  | none => none
  | some (mo, r3) =>
  match expectChar '-' r3 with
  | none => none
  | some r4 =>
  match parse2 r4 with
  | none => none
  | some (d, r5) =>
  match expectSep r5 with
  | none => none
  | some r6 =>
  match parse2 r6 with
  | none => none
  | some (h, r7) =>
  match expectChar ':' r7 with
  | none => none
  | some r8 =>
  match parse2 r8 with
  | none => none
  | some (mi, r9) =>
  match expectChar ':' r9 with
  | none => none
  | some r10 =>
  match parse2 r10 with
  | none => none
  | some (se, r11) =>
    if validOffset r11 ∧ 1 ≤ y ∧ 1 ≤ mo ∧ mo ≤ 12 ∧ 1 ≤ d
        ∧ d ≤ daysInMonth (y : Int) mo ∧ h ≤ 23 ∧ mi ≤ 59 ∧ se ≤ 59 then
      some ⟨(y : Int), mo, d, h, mi, se⟩
    else none

/-- Python `s.replace("Z", "+00:00")`. -/
def replaceZ : List Char → List Char
  | [] => []
  | c :: cs =>
    if c == 'Z' then '+' :: '0' :: '0' :: ':' :: '0' :: '0' :: replaceZ cs
    else c :: replaceZ cs

/-- The wall-clock datetime `_run_at_matches` (and `add`'s validation)
obtains from a `run_at` string; `none` models the `ValueError` path. -/
def runAtParse (s : List Char) : Option PyDateTime :=
  fromIso (replaceZ s)

/-- The body of `_run_at_matches(run_at, now)` before the `except` clause:
`-1 <= (now - run_at).total_seconds()/60 <= 60`.  At whole-second
granularity the division by 60 is exact, so the float comparison against
-1 and 60 minutes is precisely the integer comparison of the second
difference against -60 and 3600. -/
def runAtMatchesE (s : List Char) (now : PyDateTime) : Option Bool :=
  match runAtParse s with
  | none => none
  | some rt =>
    let diffSeconds : Int := epochSeconds now - epochSeconds rt
    some (decide (-60 ≤ diffSeconds ∧ diffSeconds ≤ 3600))

/-- The function `_run_at_matches`: any exception is swallowed into `False`. -/
def runAtMatches (s : List Char) (now : PyDateTime) : Bool :=
  (runAtMatchesE s now).getD false

/-! ## `_cron_matches` -/

/-- The body of `_cron_matches` before the `except` clause: split into five fields,
test them in order with early exit, convert `weekday()` to cron's
0 = Sunday.  `none` models a raised exception. -/
def cronMatchesE (c : List Char) (dt : PyDateTime) : Option Bool :=
  match splitWhitespace c with
  | [fMin, fHour, fDom, fMon, fDow] =>
    match cronFieldMatches fMin dt.minute with
    | none => none
    | some false => some false
    | some true =>
    match cronFieldMatches fHour dt.hour with
    | none => none
    | some false => some false
    | some true =>
    match cronFieldMatches fDom dt.day with
    | none => none
    | some false => some false
    | some true =>
    match cronFieldMatches fMon dt.month with
    | none => none
    | some false => some false
    | some true =>
    match cronFieldMatches fDow ((pyWeekday dt + 1) % 7) with
    | none => none
    | some b => some b
  | _ => none

/-- The function `_cron_matches`: any exception is swallowed into `False`. -/
def cronMatches (c : List Char) (dt : PyDateTime) : Bool :=
  (cronMatchesE c dt).getD false

/-! ## Stored jobs

A stored job is a JSON object whose keys may be absent; `none` models an
absent key.  Field order: cron, run_at, once, enabled, prompt,
system_prompt, tools, model, max_tokens, context. -/

structure Job where
  cron : Option (List Char)
  run_at : Option (List Char)
  once : Option Bool
  enabled : Option Bool
  prompt : Option String
  system_prompt : Option String
  tools : Option String
  model : Option String
  max_tokens : Option Int
  context : Option String
deriving DecidableEq

/-- A Python value as it appears in the `check` result records. -/
inductive PyVal where
  | vNone : PyVal
  | vStr : String → PyVal
  | vInt : Int → PyVal
  | vBool : Bool → PyVal
  | vRat : ℚ → PyVal
deriving DecidableEq

def optStr : Option String → PyVal
  | none => PyVal.vNone
  | some s => PyVal.vStr s

def optInt : Option Int → PyVal
  | none => PyVal.vNone
  | some n => PyVal.vInt n

/-- The record appended to `jobs_to_run` for a due job (scheduler.py,
`check`): a dict literal with this fixed key set, unset optional job fields
showing up as `None`. -/
def dueRecord (jid : String) (job : Job) : List (String × PyVal) :=
  [("job_id", PyVal.vStr jid),
   ("prompt", PyVal.vStr (job.prompt.getD (""))),
   ("system_prompt", optStr job.system_prompt),
   ("tools", optStr job.tools),
   ("model", optStr job.model),
   ("max_tokens", optInt job.max_tokens),
   ("context", optStr job.context),
   ("once", PyVal.vBool (job.once.getD false))]

/-- Python `cron_expr = job.get("cron")` followed by `if cron_expr and
_cron_matches(cron_expr, now)` (an empty string is falsy). -/
def jobCronHit (job : Job) (now : PyDateTime) : Bool :=
  match job.cron with
  | none => false
  | some c => if c = [] then false else cronMatches c now

/-- Python `run_at_str = job.get("run_at")` followed by `if run_at_str and
_run_at_matches(run_at_str, now)`. -/
def jobRunAtHit (job : Job) (now : PyDateTime) : Bool :=
  match job.run_at with
  | none => false
  | some r => if r = [] then false else runAtMatches r now

/-- One pass of `check`'s job loop, in iteration order: returns
(`jobs_to_run`, `jobs_to_remove`). -/
def checkJobs (now : PyDateTime) : List (String × Job) →
    List (List (String × PyVal)) × List String
  | [] => ([], [])
  | (jid, job) :: rest =>
    let tail := checkJobs now rest
    if job.enabled.getD true = false then tail
    else
      let cronHit := jobCronHit job now
      let runHit := jobRunAtHit job now
      let retire := runHit && job.once.getD false
      ((if cronHit || runHit then dueRecord jid job :: tail.1 else tail.1),
       (if retire then jid :: tail.2 else tail.2))

/-- Result of the `check` action: the due-job records, the retired ids, the
post-retirement job collection, and whether `_save_schedules` was called
(exactly one conditional write, guarded by `if jobs_to_remove:`). -/
structure CheckResult where
  jobsToRun : List (List (String × PyVal))
  removed : List String
  finalJobs : List (String × Job)
  persisted : Bool
deriving DecidableEq

/-- The `check` action of `scheduler` (lines 474-519 of scheduler.py). -/
def checkAction (jobs : List (String × Job)) (now : PyDateTime) : CheckResult :=
  let due := checkJobs now jobs
  ⟨due.1, due.2,
   (if due.2 = [] then jobs else jobs.filter (fun e => decide (e.1 ∉ due.2))),
   decide (due.2 ≠ [])⟩

/-! ## The `add` and `get` actions -/

/-- The flat named parameters of an `add` call; `none` models an omitted
argument (for `once` the Python default is `False`). -/
structure AddInput where
  job_id : Option String
  cron : Option (List Char)
  run_at : Option (List Char)
  once : Bool
  prompt : Option String
  system_prompt : Option String
  tools : Option String
  model : Option String
  max_tokens : Option Int
  context : Option String

/-- Python truthiness of an optional string argument. -/
def truthyS : Option String → Bool
  | none => false
  | some s => decide (s ≠ "")

/-- Python truthiness of an optional string argument held as chars. -/
def truthyL : Option (List Char) → Bool
  | none => false
  | some s => decide (s ≠ [])

/-- Python truthiness of an optional int argument. -/
def truthyI : Option Int → Bool
  | none => false
  | some n => decide (n ≠ 0)

/-- The job object `add` stores: a fresh dict (no merge with any prior job),
`enabled: True` unconditionally, each optional key set only when the
argument is truthy, and `once` only on the `run_at` path. -/
def mkJob (inp : AddInput) : Job :=
  ⟨(if truthyL inp.cron then inp.cron else none),
   (if truthyL inp.run_at then inp.run_at else none),
   (if truthyL inp.run_at && inp.once then some true else none),
   some true,
   inp.prompt,
   (if truthyS inp.system_prompt then inp.system_prompt else none),
   (if truthyS inp.tools then inp.tools else none),
   (if truthyS inp.model then inp.model else none),
   (if truthyI inp.max_tokens then inp.max_tokens else none),
   (if truthyS inp.context then inp.context else none)⟩

/-- Python dict assignment `jobs[job_id] = v`: replace in place, else
append. -/
def alistInsert (k : String) (v : Job) : List (String × Job) → List (String × Job)
  | [] => [(k, v)]
  | (k', v') :: rest =>
    if k' = k then (k, v) :: rest else (k', v') :: alistInsert k v rest

/-- Outcome of an `add` call: the returned status/message, and `some c`
exactly when the collection `c` was written back (`_save_schedules`). -/
structure AddOutcome where
  status : String
  message : String
  saved : Option (List (String × Job))
deriving DecidableEq

/-- The `add` action of `scheduler` (lines 555-646 of scheduler.py),
assuming the variable-store write itself succeeds. -/
def addAction (inp : AddInput) (coll : List (String × Job)) : AddOutcome :=
  if truthyS inp.job_id = false then
    ⟨"error", "Error: job_id is required", none⟩
  else if truthyL inp.cron = false ∧ truthyL inp.run_at = false then
    ⟨"error", "Error: Either cron or run_at is required", none⟩
  else if truthyS inp.prompt = false then
    ⟨"error", "Error: prompt is required", none⟩
  else if truthyL inp.cron ∧ (splitWhitespace (inp.cron.getD [])).length ≠ 5 then
    ⟨"error",
     "Error: Invalid cron expression: " ++ String.mk (inp.cron.getD [])
       ++ " (expected 5 fields)", none⟩
  else if truthyL inp.run_at ∧ (runAtParse (inp.run_at.getD [])).isNone then
    ⟨"error",
     "Error: Invalid run_at format. Use ISO 8601 (e.g., 2024-01-20T14:00:00Z)",
     none⟩
  else
    ⟨"success", "added",
     some (alistInsert (inp.job_id.getD ("")) (mkJob inp) coll)⟩

/-- Result of the `get` action. -/
inductive GetResult where
  | found : Job → GetResult
  | notFound : GetResult
deriving DecidableEq

/-- The `get` action of `scheduler` (lines 712-755): returns the stored job
verbatim, or not-found. -/
def getAction (jid : String) (coll : List (String × Job)) : GetResult :=
  match coll.lookup jid with
  | some j => GetResult.found j
  | none => GetResult.notFound

/-! ## Project-board synchronizer (`projects.py`) -/

/-- A SINGLE_SELECT option as fetched from the graph API. -/
structure FieldOption where
  name : String
  oid : String
deriving DecidableEq

/-- A project field as fetched from the graph API; non-select fields carry
no `options` key (`none`). -/
structure PField where
  name : String
  fid : String
  dataType : String
  options : Option (List FieldOption)
deriving DecidableEq

/-- Python `", ".join(l)`. -/
def joinComma : List String → String
  | [] => ""
  | [s] => s
  | s :: rest => s ++ ", " ++ joinComma rest

/-- The field-lookup loop of `update_item`: first field whose `name` equals
`field_name` by exact (case-sensitive) string comparison. -/
def findField (fieldName : String) : List PField → Option PField
  | [] => none
  | f :: rest => if f.name = fieldName then some f else findField fieldName rest

/-- The option-lookup loop of `update_item`: the id of the first option
whose `name` equals `field_value` exactly. -/
def findOption (fieldValue : String) : List FieldOption → Option String
  | [] => none
  | o :: rest => if o.name = fieldValue then some o.oid else findOption fieldValue rest

/-- Python `float(s)` on a simple decimal string (`none` = `ValueError`);
only its success/failure split matters here. -/
def pyFloat (s : String) : Option ℚ :=
  let chars := s.data
  let body := match chars with
    | '-' :: rest => rest
    | '+' :: rest => rest
    | l => l
  match splitOnChar '.' body with
  | [intPart] =>
    (parseNat intPart).map (fun n => ((n : ℚ)))
  | [intPart, fracPart] =>
    match parseNat intPart, parseNat fracPart with
    | some n, some f => some ((n : ℚ) + (f : ℚ) / ((10 : ℚ) ^ fracPart.length))
    | _, _ => none
  | _ => none

/-- The remote mutation issued by a successful `update_item`: target field
id, transmitted value, and which input key of `_update_item_field` carries
it. -/
structure Mutation where
  fieldId : String
  value : PyVal
  valueKind : String
deriving DecidableEq

/-- Outcome of `update_item`. -/
inductive UpdateResult where
  | done : Mutation → UpdateResult
  | failed : String → UpdateResult
deriving DecidableEq

/-- The `update_item` action (projects.py lines 1410-1491), given the
project's fetched field list: name lookup, then dispatch on the declared
data type.  For SINGLE_SELECT the single falsy test `if not option_id`
treats both a missing option and an empty-string id as not found. -/
def updateItem (fields : List PField) (fieldName fieldValue : String) :
    UpdateResult :=
  match findField fieldName fields with
  | none =>
    UpdateResult.failed
      ("Field '" ++ fieldName ++ "' not found. Available: "
        ++ joinComma (fields.map PField.name))
  | some f =>
    if f.dataType = "SINGLE_SELECT" then
      let optionId := (findOption fieldValue (f.options.getD [])).getD ("")
      if optionId = "" then
        UpdateResult.failed
          ("Option '" ++ fieldValue ++ "' not found. Available: "
            ++ joinComma ((f.options.getD []).map FieldOption.name))
      else
        UpdateResult.done ⟨f.fid, PyVal.vStr optionId, "singleSelectOptionId"⟩
    else if f.dataType = "NUMBER" then
      match pyFloat fieldValue with
      | some q => UpdateResult.done ⟨f.fid, PyVal.vRat q, "number"⟩
      | none => UpdateResult.failed ("could not convert string to float")
    else if f.dataType = "DATE" then
      UpdateResult.done ⟨f.fid, PyVal.vStr fieldValue, "date"⟩
    else
      UpdateResult.done ⟨f.fid, PyVal.vStr fieldValue, "text"⟩

/-! ## `_get_progress` -/

/-- One entry of an item's `fieldValues.nodes`. -/
structure ItemFieldValue where
  fieldName : Option String
  valueName : Option String
deriving DecidableEq

/-- A project item as fetched by `_get_progress`. -/
structure Item where
  isArchived : Bool
  itemType : String
  state : String
  fieldValues : List ItemFieldValue
deriving DecidableEq

/-- The counters `_get_progress` accumulates. -/
structure Progress where
  issuesOpen : Nat
  issuesClosed : Nat
  prsOpen : Nat
  prsMerged : Nat
  prsClosed : Nat
  drafts : Nat
  archived : Nat
  byStatus : List (String × Nat)
deriving DecidableEq

/-- Python `status_counts[k] = 0` (dict write, position preserved). -/
def setZero (k : String) : List (String × Nat) → List (String × Nat)
  | [] => [(k, 0)]
  | (k', n) :: rest =>
    if k' = k then (k, 0) :: rest else (k', n) :: setZero k rest

/-- Python `status_counts[k] = status_counts.get(k, 0) + 1`. -/
def bump (k : String) : List (String × Nat) → List (String × Nat)
  | [] => [(k, 1)]
  | (k', n) :: rest =>
    if k' = k then (k, n + 1) :: rest else (k', n) :: bump k rest

/-- The initial histogram: every declared option of the Status field set to
zero, guarded by the presence of the Status field and of its options key. -/
def initStatusCounts (fields : List PField) : List (String × Nat) :=
  match findField ("Status") fields with
  | some f =>
    match f.options with
    | some opts => opts.foldl (fun m o => setZero o.name m) []
    | none => []
  | none => []

/-- The per-item Status-histogram pass: `fv.get("field", {}).get("name") ==
"Status" and fv.get("name")` (the value name must be truthy). -/
def countStatus (item : Item) (m : List (String × Nat)) : List (String × Nat) :=
  item.fieldValues.foldl
    (fun acc fv =>
      if fv.fieldName = some ("Status") ∧ fv.valueName.getD ("") ≠ "" then
        bump (fv.valueName.getD ("")) acc
      else acc)
    m

/-- One iteration of `_get_progress`'s item loop; an archived item only
bumps `archived` (the `continue` skips type, state and status counting). -/
def progressStep (acc : Progress) (item : Item) : Progress :=
  if item.isArchived then
    ⟨acc.issuesOpen, acc.issuesClosed, acc.prsOpen, acc.prsMerged,
     acc.prsClosed, acc.drafts, acc.archived + 1, acc.byStatus⟩
  else
    let a1 : Progress :=
      if item.itemType = "ISSUE" then
        if item.state = "OPEN" then
          ⟨acc.issuesOpen + 1, acc.issuesClosed, acc.prsOpen, acc.prsMerged,
           acc.prsClosed, acc.drafts, acc.archived, acc.byStatus⟩
        else
          ⟨acc.issuesOpen, acc.issuesClosed + 1, acc.prsOpen, acc.prsMerged,
           acc.prsClosed, acc.drafts, acc.archived, acc.byStatus⟩
      else if item.itemType = "PULL_REQUEST" then
        if item.state = "MERGED" then
          ⟨acc.issuesOpen, acc.issuesClosed, acc.prsOpen, acc.prsMerged + 1,
           acc.prsClosed, acc.drafts, acc.archived, acc.byStatus⟩
        else if item.state = "OPEN" then
          ⟨acc.issuesOpen, acc.issuesClosed, acc.prsOpen + 1, acc.prsMerged,
           acc.prsClosed, acc.drafts, acc.archived, acc.byStatus⟩
        else
          ⟨acc.issuesOpen, acc.issuesClosed, acc.prsOpen, acc.prsMerged,
           acc.prsClosed + 1, acc.drafts, acc.archived, acc.byStatus⟩
      else if item.itemType = "DRAFT_ISSUE" then
        ⟨acc.issuesOpen, acc.issuesClosed, acc.prsOpen, acc.prsMerged,
         acc.prsClosed, acc.drafts + 1, acc.archived, acc.byStatus⟩
      else acc
    ⟨a1.issuesOpen, a1.issuesClosed, a1.prsOpen, a1.prsMerged, a1.prsClosed,
     a1.drafts, a1.archived, countStatus item a1.byStatus⟩

/-- The function `_get_progress` (projects.py lines 923-1008), as a function of the
fetched field list and items. -/
def getProgress (fields : List PField) (items : List Item) : Progress :=
  items.foldl progressStep ⟨0, 0, 0, 0, 0, 0, 0, initStatusCounts fields⟩

/-! ## String-level helper lemmas -/

theorem pyContains_append (c : Char) (l1 l2 : List Char) :
    pyContains c (l1 ++ l2) = (pyContains c l1 || pyContains c l2) := by
  induction l1 with
  | nil => simp [pyContains]
  | cons x xs ih => simp [pyContains, ih, Bool.or_assoc]

theorem parseNat_ne_nil {s : List Char} {n : Nat} (h : parseNat s = some n) :
    s ≠ [] := by
  intro hs
  subst hs
  simp [parseNat] at h

theorem parseNat_all_digits {s : List Char} {n : Nat} (h : parseNat s = some n) :
    ∀ c ∈ s, c.isDigit = true := by
  unfold parseNat at h
  split at h
  case isTrue hc => exact fun c hm => List.all_eq_true.mp hc.2 c hm
  case isFalse => simp at h

theorem beq_false_of_digit {c d : Char} (hc : c.isDigit = true)
    (hd : d.isDigit = false) : (c == d) = false := by
  rw [beq_eq_false_iff_ne]
  intro he
  rw [← he, hc] at hd
  exact Bool.noConfusion hd

theorem pyContains_false_of_digits {s : List Char} {d : Char}
    (hs : ∀ c ∈ s, c.isDigit = true) (hd : d.isDigit = false) :
    pyContains d s = false := by
  induction s with
  | nil => rfl
  | cons x xs ih =>
    simp only [pyContains]
    rw [beq_false_of_digit (hs x (by simp)) hd,
      ih (fun c hc => hs c (by simp [hc]))]
    rfl

theorem ne_star_of_digits {s : List Char} (hs : ∀ c ∈ s, c.isDigit = true) :
    s ≠ ['*'] := by
  intro he
  subst he
  have := hs '*' (by simp)
  simp [Char.isDigit] at this

theorem isStepField_false_of_digit {a : Char} (l : List Char)
    (ha : a.isDigit = true) : isStepField (a :: l) = false := by
  cases l with
  | nil => rfl
  | cons b bs =>
    simp only [isStepField]
    rw [beq_false_of_digit ha (by decide)]
    rfl

theorem splitOnChar_no_sep {sep : Char} {s : List Char}
    (h : pyContains sep s = false) : splitOnChar sep s = [s] := by
  induction s with
  | nil => rfl
  | cons c cs ih =>
    simp only [pyContains, Bool.or_eq_false_iff] at h
    have ih' := ih h.2
    simp only [splitOnChar] at ih' ⊢
    rw [splitP, if_neg (by simp [h.1]), ih']

theorem splitOnChar_append_cons {sep : Char} {s : List Char} (rest : List Char)
    (h : pyContains sep s = false) :
    splitOnChar sep (s ++ sep :: rest) = s :: splitOnChar sep rest := by
  induction s with
  | nil =>
    simp only [List.nil_append, splitOnChar]
    rw [splitP, if_pos (by simp)]
  | cons c cs ih =>
    simp only [pyContains, Bool.or_eq_false_iff] at h
    have ih' := ih h.2
    simp only [splitOnChar, List.cons_append] at ih' ⊢
    rw [splitP, if_neg (by simp [h.1]), ih']

/-- Variant of `splitOnChar_append_cons` with its left part in cons-normal form. -/
theorem splitOnChar_cons_append (sep a0 : Char) (as rest : List Char)
    (h : pyContains sep (a0 :: as) = false) :
    splitOnChar sep (a0 :: (as ++ sep :: rest))
      = (a0 :: as) :: splitOnChar sep rest := by
  have h2 := splitOnChar_append_cons (s := a0 :: as) rest h
  rwa [List.cons_append] at h2

/-! ## Claim C5: the cron field matcher -/

theorem dash_not_digit : ('-').isDigit = false := by decide

theorem slash_not_digit : ('/').isDigit = false := by decide

theorem comma_not_digit : (',').isDigit = false := by decide

/-- Distributing `pyContains` through a separator-joined pair. -/
theorem pyContains_mid (d sep : Char) (s1 s2 : List Char) :
    pyContains d (s1 ++ sep :: s2)
      = (pyContains d s1 || (sep == d) || pyContains d s2) := by
  rw [pyContains_append]
  simp [pyContains, Bool.or_assoc]

/-- Dispatch: a field starting with `*/` takes the step branch. -/
theorem cfm_step {field : List Char} (v : Nat) (h1 : field ≠ ['*'])
    (h2 : isStepField field = true) :
    cronFieldMatches field v = stepBranch field v := by
  simp [cronFieldMatches, h1, h2]

/-- Dispatch: a field with `-` and no `/` takes the range branch. -/
theorem cfm_range {field : List Char} (v : Nat) (h1 : field ≠ ['*'])
    (h2 : isStepField field = false) (h3 : pyContains '-' field = true)
    (h4 : pyContains '/' field = false) :
    cronFieldMatches field v = rangeBranch field v := by
  simp [cronFieldMatches, h1, h2, h3, h4]

/-- Dispatch: a field with `-` and `/` takes the range-step branch. -/
theorem cfm_rangeStep {field : List Char} (v : Nat) (h1 : field ≠ ['*'])
    (h2 : isStepField field = false) (h3 : pyContains '-' field = true)
    (h4 : pyContains '/' field = true) :
    cronFieldMatches field v = rangeStepBranch field v := by
  simp [cronFieldMatches, h1, h2, h3, h4]

/-- Dispatch: a field with `,` and no `-` takes the list branch. -/
theorem cfm_list {field : List Char} (v : Nat) (h1 : field ≠ ['*'])
    (h2 : isStepField field = false) (h3 : pyContains '-' field = false)
    (h5 : pyContains ',' field = true) :
    cronFieldMatches field v = listBranch field v := by
  simp [cronFieldMatches, h1, h2, h3, h5]

/-- Dispatch: a field with none of the special characters takes the
bare-integer branch. -/
theorem cfm_exact {field : List Char} (v : Nat) (h1 : field ≠ ['*'])
    (h2 : isStepField field = false) (h3 : pyContains '-' field = false)
    (h5 : pyContains ',' field = false) :
    cronFieldMatches field v = exactBranch field v := by
  simp [cronFieldMatches, h1, h2, h3, h5]

/-- C5: for every value `v` the cron field matcher returns: on `*` true; on
`*/N` whether `v % N == 0`; on `A-B` whether `A ≤ v ≤ B`; on `A-B/N` whether
`v` is in range and `(v - A) % N == 0`; on `A,B,C` membership; on a bare
integer exact equality.  Numerals are quantified as digit strings through
`parseNat`. -/
theorem cron_field_matcher_spec (v : Nat) :
    (cronFieldMatches ['*'] v = some true)
    ∧ (∀ s N, parseNat s = some N → N ≠ 0 →
        cronFieldMatches ('*' :: '/' :: s) v = some (v % N == 0))
    ∧ (∀ sa sb A B, parseNat sa = some A → parseNat sb = some B →
        cronFieldMatches (sa ++ '-' :: sb) v = some (decide (A ≤ v ∧ v ≤ B)))
    ∧ (∀ sa sb sn A B N, parseNat sa = some A → parseNat sb = some B →
        parseNat sn = some N → N ≠ 0 →
        cronFieldMatches ((sa ++ '-' :: sb) ++ '/' :: sn) v
          = some (decide ((A ≤ v ∧ v ≤ B) ∧ (v - A) % N = 0)))
    ∧ (∀ sa sb sc A B C, parseNat sa = some A → parseNat sb = some B →
        parseNat sc = some C →
        cronFieldMatches ((sa ++ ',' :: sb) ++ ',' :: sc) v
          = some (decide (v = A ∨ v = B ∨ v = C)))
    ∧ (∀ s N, parseNat s = some N → cronFieldMatches s v = some (N == v)) := by
  refine ⟨rfl, ?_, ?_, ?_, ?_, ?_⟩
  · -- step fields */N
    intro s N hN hN0
    obtain ⟨m, rfl⟩ := Nat.exists_eq_succ_of_ne_zero hN0
    rw [cfm_step v (by simp) (by simp [isStepField])]
    simp [stepBranch, hN]
  · -- ranges A-B
    intro sa sb A B hA hB
    have hda := parseNat_all_digits hA
    have hdb := parseNat_all_digits hB
    obtain ⟨a0, as, rfl⟩ := List.exists_cons_of_ne_nil (parseNat_ne_nil hA)
    rw [List.cons_append] at *
    rw [cfm_range v
      (by
        intro he
        have := hda a0 (by simp)
        have h2 := List.head_eq_of_cons_eq he
        rw [h2] at this
        simp [Char.isDigit] at this)
      (isStepField_false_of_digit _ (hda a0 (by simp)))
      (by
        rw [← List.cons_append, pyContains_mid]
        simp)
      (by
        rw [← List.cons_append, pyContains_mid]
        rw [pyContains_false_of_digits hda slash_not_digit,
          pyContains_false_of_digits hdb slash_not_digit]
        rfl)]
    rw [rangeBranch, ← List.cons_append,
      splitOnChar_append_cons sb (pyContains_false_of_digits hda dash_not_digit),
      splitOnChar_no_sep (pyContains_false_of_digits hdb dash_not_digit)]
    simp only [hA, hB]
    by_cases hAv : A ≤ v
    · simp [hAv]
    · simp [hAv]
  · -- range with step A-B/N
    intro sa sb sn A B N hA hB hN hN0
    obtain ⟨m, rfl⟩ := Nat.exists_eq_succ_of_ne_zero hN0
    have hda := parseNat_all_digits hA
    have hdb := parseNat_all_digits hB
    have hdn := parseNat_all_digits hN
    have hinner : pyContains '/' (sa ++ '-' :: sb) = false := by
      rw [pyContains_mid]
      rw [pyContains_false_of_digits hda slash_not_digit,
        pyContains_false_of_digits hdb slash_not_digit]
      rfl
    obtain ⟨a0, as, rfl⟩ := List.exists_cons_of_ne_nil (parseNat_ne_nil hA)
    rw [cfm_rangeStep v
      (by
        intro he
        have := hda a0 (by simp)
        rw [List.cons_append, List.cons_append] at he
        have h2 := List.head_eq_of_cons_eq he
        rw [h2] at this
        simp [Char.isDigit] at this)
      (by
        rw [List.cons_append, List.cons_append]
        exact isStepField_false_of_digit _ (hda a0 (by simp)))
      (by
        rw [pyContains_mid, pyContains_mid]
        simp)
      (by
        rw [pyContains_mid]
        simp)]
    rw [rangeStepBranch,
      splitOnChar_append_cons sn hinner,
      splitOnChar_no_sep (pyContains_false_of_digits hdn slash_not_digit)]
    simp only [List.cons_append,
      splitOnChar_cons_append '-' a0 as sb
        (pyContains_false_of_digits hda dash_not_digit),
      splitOnChar_no_sep (pyContains_false_of_digits hdb dash_not_digit),
      hA, hB, hN]
    by_cases hAv : A ≤ v
    · by_cases hvB : v ≤ B
      · by_cases hx : (v - A) % (m + 1) = 0
        · simp [hAv, hvB, hx]
        · simp [hAv, hvB, hx]
      · simp [hAv, hvB]
    · simp [hAv]
  · -- comma lists A,B,C
    intro sa sb sc A B C hA hB hC
    have hda := parseNat_all_digits hA
    have hdb := parseNat_all_digits hB
    have hdc := parseNat_all_digits hC
    obtain ⟨a0, as, rfl⟩ := List.exists_cons_of_ne_nil (parseNat_ne_nil hA)
    rw [cfm_list v
      (by
        intro he
        have := hda a0 (by simp)
        rw [List.cons_append, List.cons_append] at he
        have h2 := List.head_eq_of_cons_eq he
        rw [h2] at this
        simp [Char.isDigit] at this)
      (by
        rw [List.cons_append, List.cons_append]
        exact isStepField_false_of_digit _ (hda a0 (by simp)))
      (by
        rw [pyContains_mid, pyContains_mid]
        rw [pyContains_false_of_digits hda dash_not_digit,
          pyContains_false_of_digits hdb dash_not_digit,
          pyContains_false_of_digits hdc dash_not_digit]
        rfl)
      (by
        rw [pyContains_mid, pyContains_mid]
        simp)]
    rw [listBranch]
    simp only [List.append_assoc, List.cons_append]
    simp only [splitOnChar_cons_append ',' a0 as (sb ++ ',' :: sc)
        (pyContains_false_of_digits hda comma_not_digit),
      splitOnChar_append_cons sc (pyContains_false_of_digits hdb comma_not_digit),
      splitOnChar_no_sep (pyContains_false_of_digits hdc comma_not_digit),
      parseAll, hA, hB, hC]
    by_cases h1 : v = A
    · simp [pyElem, h1]
    · by_cases h2 : v = B
      · simp [pyElem, h1, h2]
      · by_cases h3 : v = C
        · simp [pyElem, h1, h2, h3]
        · simp [pyElem, h1, h2, h3]
  · -- bare integers
    intro s N hN
    have hd := parseNat_all_digits hN
    obtain ⟨c0, cs, rfl⟩ := List.exists_cons_of_ne_nil (parseNat_ne_nil hN)
    rw [cfm_exact v (ne_star_of_digits hd)
      (isStepField_false_of_digit cs (hd c0 (by simp)))
      (pyContains_false_of_digits hd dash_not_digit)
      (pyContains_false_of_digits hd comma_not_digit)]
    simp [exactBranch, hN]

/-- Witness for C5 at concrete field strings and values. -/
theorem cron_field_matcher_spec_witness :
    cronFieldMatches (("*").data) 7 = some true
    ∧ cronFieldMatches (("*/15").data) 30 = some (30 % 15 == 0)
    ∧ cronFieldMatches (("1-5").data) 3 = some (decide (1 ≤ 3 ∧ 3 ≤ 5))
    ∧ cronFieldMatches (("0-30/5").data) 25
        = some (decide ((0 ≤ 25 ∧ 25 ≤ 30) ∧ (25 - 0) % 5 = 0))
    ∧ cronFieldMatches (("1,3,5").data) 4
        = some (decide (4 = 1 ∨ 4 = 3 ∨ 4 = 5))
    ∧ cronFieldMatches (("7").data) 7 = some ((7 : Nat) == 7) :=
  ⟨(cron_field_matcher_spec 7).1,
   (cron_field_matcher_spec 30).2.1 (("15").data) 15 (by decide) (by decide),
   (cron_field_matcher_spec 3).2.2.1 (("1").data) (("5").data) 1 5
     (by decide) (by decide),
   (cron_field_matcher_spec 25).2.2.2.1 (("0").data) (("30").data) (("5").data)
     0 30 5 (by decide) (by decide) (by decide) (by decide),
   (cron_field_matcher_spec 4).2.2.2.2.1 (("1").data) (("3").data) (("5").data)
     1 3 5 (by decide) (by decide) (by decide),
   (cron_field_matcher_spec 7).2.2.2.2.2 (("7").data) 7 (by decide)⟩

/-! ## Characterizing the `check` loop -/

/-- A job entry yields a due record iff it is enabled and either trigger
matches. -/
def entryDue (now : PyDateTime) (e : String × Job) : Bool :=
  e.2.enabled.getD true && (jobCronHit e.2 now || jobRunAtHit e.2 now)

/-- A job entry is marked for removal iff it is enabled, its `run_at`
matches, and `once` is truthy. -/
def entryRetire (now : PyDateTime) (e : String × Job) : Bool :=
  e.2.enabled.getD true && (jobRunAtHit e.2 now && e.2.once.getD false)

theorem checkJobs_fst (now : PyDateTime) (l : List (String × Job)) :
    (checkJobs now l).1 = l.filterMap
      (fun e => if entryDue now e then some (dueRecord e.1 e.2) else none) := by
  induction l with
  | nil => rfl
  | cons e rest ih =>
    obtain ⟨jid, job⟩ := e
    cases hen : job.enabled.getD true with
    | false => simp [checkJobs, hen, ih, entryDue, List.filterMap_cons]
    | true =>
      by_cases hdue : (jobCronHit job now = true ∨ jobRunAtHit job now = true)
      · simp [checkJobs, hen, ih, entryDue, List.filterMap_cons, hdue]
      · simp [checkJobs, hen, ih, entryDue, List.filterMap_cons, hdue]

theorem checkJobs_snd (now : PyDateTime) (l : List (String × Job)) :
    (checkJobs now l).2 = l.filterMap
      (fun e => if entryRetire now e then some e.1 else none) := by
  induction l with
  | nil => rfl
  | cons e rest ih =>
    obtain ⟨jid, job⟩ := e
    cases hen : job.enabled.getD true with
    | false => simp [checkJobs, hen, ih, entryRetire, List.filterMap_cons]
    | true =>
      by_cases hret : (jobRunAtHit job now = true ∧ job.once.getD false = true)
      · simp [checkJobs, hen, ih, entryRetire, List.filterMap_cons, hret]
      · simp [checkJobs, hen, ih, entryRetire, List.filterMap_cons, hret]

/-! ## Claim C7: evaluation fails closed -/

/-- C7: trigger-matching failures never escape `check`: a cron or run_at
string on which matching raises (`none` in the embedding) makes the job not
due; evaluation distributes over the collection, so every other job is
still evaluated; and a job that hits neither trigger contributes nothing at
any position in the collection. -/
theorem evaluate_fail_closed :
    (∀ c now, cronMatchesE c now = none → cronMatches c now = false)
    ∧ (∀ r now, runAtMatchesE r now = none → runAtMatches r now = false)
    ∧ (∀ now (l1 l2 : List (String × Job)), checkJobs now (l1 ++ l2)
        = ((checkJobs now l1).1 ++ (checkJobs now l2).1,
           (checkJobs now l1).2 ++ (checkJobs now l2).2))
    ∧ (∀ now (l1 l2 : List (String × Job)) jid job,
        jobCronHit job now = false → jobRunAtHit job now = false →
        checkJobs now (l1 ++ (jid, job) :: l2) = checkJobs now (l1 ++ l2)) := by
  refine ⟨?_, ?_, ?_, ?_⟩
  · intro c now h
    simp [cronMatches, h]
  · intro r now h
    simp [runAtMatches, h]
  · intro now l1 l2
    refine Prod.ext ?_ ?_
    · simp [checkJobs_fst, List.filterMap_append]
    · simp [checkJobs_snd, List.filterMap_append]
  · intro now l1 l2 jid job hc hr
    refine Prod.ext ?_ ?_
    · simp [checkJobs_fst, List.filterMap_append, List.filterMap_cons,
        entryDue, hc, hr]
    · simp [checkJobs_snd, List.filterMap_append, List.filterMap_cons,
        entryRetire, hc, hr]

/-- Witness for C7: a malformed cron string and a malformed run_at string
are simply not due. -/
theorem evaluate_fail_closed_witness :
    cronMatches (("not a cron").data) ⟨2024, 1, 17, 9, 0, 0⟩ = false
    ∧ runAtMatches (("tomorrowish").data) ⟨2024, 1, 17, 9, 0, 0⟩ = false :=
  ⟨evaluate_fail_closed.1 (("not a cron").data) ⟨2024, 1, 17, 9, 0, 0⟩ (by decide),
   evaluate_fail_closed.2.1 (("tomorrowish").data) ⟨2024, 1, 17, 9, 0, 0⟩
     (by decide)⟩

/-! ## Claim C1: the shape of the due-job records -/

/-- A concrete due `once` job, used in concrete evaluations. -/
def sampleOnceJob : Job :=
  ⟨none, some (("2024-01-20T14:00:00Z").data), some true, some true,
   some ("do it"), none, none, none, none, none⟩

/-- A concrete evaluation instant 10 minutes past `sampleOnceJob.run_at`. -/
def sampleNow : PyDateTime := ⟨2024, 1, 20, 14, 10, 0⟩

/-- C1 counterexample: the due record of a job with no optional payload
fields carries the key `job_id` (there is no `id` key) and carries
`system_prompt` with value `None` instead of omitting it. -/
theorem due_record_shape_cex :
    (checkAction [(("j1"), sampleOnceJob)] sampleNow).jobsToRun
      = [dueRecord ("j1") sampleOnceJob]
    ∧ (dueRecord ("j1") sampleOnceJob).lookup ("id") = none
    ∧ (dueRecord ("j1") sampleOnceJob).lookup ("system_prompt")
        = some PyVal.vNone := by
  exact ⟨by decide, rfl, rfl⟩

/-- C1 (amended): every record returned by `check` has exactly the keys
`job_id, prompt, system_prompt, tools, model, max_tokens, context, once`
(in this order); each record is the due record of a stored job; and every
optional field the stored job does not set is present with value `None`
rather than omitted. -/
theorem due_record_shape :
    (∀ jobs now rec, rec ∈ (checkAction jobs now).jobsToRun →
      rec.map Prod.fst
        = [("job_id"), ("prompt"), ("system_prompt"), ("tools"), ("model"),
           ("max_tokens"), ("context"), ("once")])
    ∧ (∀ jobs now rec, rec ∈ (checkAction jobs now).jobsToRun →
      ∃ e, e ∈ jobs ∧ rec = dueRecord e.1 e.2)
    ∧ (∀ jid job, job.system_prompt = none →
        (dueRecord jid job).lookup ("system_prompt") = some PyVal.vNone)
    ∧ (∀ jid job, job.tools = none →
        (dueRecord jid job).lookup ("tools") = some PyVal.vNone)
    ∧ (∀ jid job, job.model = none →
        (dueRecord jid job).lookup ("model") = some PyVal.vNone)
    ∧ (∀ jid job, job.max_tokens = none →
        (dueRecord jid job).lookup ("max_tokens") = some PyVal.vNone)
    ∧ (∀ jid job, job.context = none →
        (dueRecord jid job).lookup ("context") = some PyVal.vNone) := by
  have hmem : ∀ jobs now rec, rec ∈ (checkAction jobs now).jobsToRun →
      ∃ e, e ∈ jobs ∧ rec = dueRecord e.1 e.2 := by
    intro jobs now rec hrec
    simp only [checkAction, checkJobs_fst] at hrec
    obtain ⟨e, he, heq⟩ := List.mem_filterMap.mp hrec
    refine ⟨e, he, ?_⟩
    by_cases hd : entryDue now e = true
    · rw [if_pos hd] at heq
      exact (Option.some.injEq _ _ ▸ heq).symm
    · rw [if_neg hd] at heq
      exact absurd heq (Option.noConfusion)
  refine ⟨?_, hmem, ?_, ?_, ?_, ?_, ?_⟩
  · intro jobs now rec hrec
    obtain ⟨e, _, rfl⟩ := hmem jobs now rec hrec
    rfl
  all_goals
    intro jid job h
    simp [dueRecord, optStr, optInt, h, List.lookup]

/-- Witness for C1 at a concrete collection with one due job. -/
theorem due_record_shape_witness :
    (dueRecord ("j1") sampleOnceJob).map Prod.fst
      = [("job_id"), ("prompt"), ("system_prompt"), ("tools"), ("model"),
         ("max_tokens"), ("context"), ("once")] :=
  due_record_shape.1 [(("j1"), sampleOnceJob)] sampleNow
    (dueRecord ("j1") sampleOnceJob) (by decide)

/-! ## Claim C2: the run_at due window -/

/-- C2 counterexample: at `now` = 2024-01-20 14:10:00 UTC, a job with
`run_at = now + 60 minutes` is NOT due (the claim says due) and a job with
`run_at = now - 2 minutes` IS due (the claim says not due). -/
theorem run_at_window_cex :
    runAtMatches (("2024-01-20T15:10:00Z").data) ⟨2024, 1, 20, 14, 10, 0⟩
        = false
    ∧ runAtMatches (("2024-01-20T14:08:00Z").data) ⟨2024, 1, 20, 14, 10, 0⟩
        = true := by
  exact ⟨by decide, by decide⟩

/-- C2 (amended): the due window is `-1 ≤ now - run_at ≤ 60` minutes, so
`run_at = now + 61m` is not due, `run_at = now + 60m` is not due,
`run_at = now - 2m` is due, and `run_at = now - 1m` is due. -/
theorem run_at_window_boundaries (r : List Char) (now rt : PyDateTime)
    (hp : runAtParse r = some rt) :
    (epochSeconds rt - epochSeconds now = 61 * 60 → runAtMatches r now = false)
    ∧ (epochSeconds rt - epochSeconds now = 60 * 60 → runAtMatches r now = false)
    ∧ (epochSeconds now - epochSeconds rt = 2 * 60 → runAtMatches r now = true)
    ∧ (epochSeconds now - epochSeconds rt = 1 * 60 → runAtMatches r now = true) := by
  refine ⟨?_, ?_, ?_, ?_⟩
  · intro h
    have hd : epochSeconds now - epochSeconds rt = -3660 := by omega
    simp [runAtMatches, runAtMatchesE, hp, hd]
  · intro h
    have hd : epochSeconds now - epochSeconds rt = -3600 := by omega
    simp [runAtMatches, runAtMatchesE, hp, hd]
  · intro h
    simp [runAtMatches, runAtMatchesE, hp, h]
  · intro h
    simp [runAtMatches, runAtMatchesE, hp, h]

/-- Witness for C2 at the four boundary instants around
`now` = 2024-01-20 14:10:00 UTC. -/
theorem run_at_window_boundaries_witness :
    runAtMatches (("2024-01-20T15:11:00Z").data) ⟨2024, 1, 20, 14, 10, 0⟩
        = false
    ∧ runAtMatches (("2024-01-20T15:10:00Z").data) ⟨2024, 1, 20, 14, 10, 0⟩
        = false
    ∧ runAtMatches (("2024-01-20T14:08:00Z").data) ⟨2024, 1, 20, 14, 10, 0⟩
        = true
    ∧ runAtMatches (("2024-01-20T14:09:00Z").data) ⟨2024, 1, 20, 14, 10, 0⟩
        = true :=
  ⟨(run_at_window_boundaries (("2024-01-20T15:11:00Z").data)
      ⟨2024, 1, 20, 14, 10, 0⟩ ⟨2024, 1, 20, 15, 11, 0⟩ (by decide)).1
      (by decide),
   (run_at_window_boundaries (("2024-01-20T15:10:00Z").data)
      ⟨2024, 1, 20, 14, 10, 0⟩ ⟨2024, 1, 20, 15, 10, 0⟩ (by decide)).2.1
      (by decide),
   (run_at_window_boundaries (("2024-01-20T14:08:00Z").data)
      ⟨2024, 1, 20, 14, 10, 0⟩ ⟨2024, 1, 20, 14, 8, 0⟩ (by decide)).2.2.1
      (by decide),
   (run_at_window_boundaries (("2024-01-20T14:09:00Z").data)
      ⟨2024, 1, 20, 14, 10, 0⟩ ⟨2024, 1, 20, 14, 9, 0⟩ (by decide)).2.2.2
      (by decide)⟩

/-! ## Claim C3: once-job retirement -/

theorem dueRecord_lookup_jobId (jid : String) (job : Job) :
    (dueRecord jid job).lookup ("job_id") = some (PyVal.vStr jid) := rfl

theorem runAtParse_ne_nil {r : List Char} {rt : PyDateTime}
    (h : runAtParse r = some rt) : r ≠ [] := by
  intro he
  subst he
  simp [runAtParse, replaceZ, fromIso, parse4] at h

/-- No record in the due list answers to a job id absent from the
collection. -/
theorem countP_due_zero (now : PyDateTime) (jid : String)
    (l : List (String × Job)) (h : jid ∉ l.map Prod.fst) :
    (checkJobs now l).1.countP
      (fun rec => rec.lookup ("job_id") == some (PyVal.vStr jid)) = 0 := by
  rw [checkJobs_fst]
  induction l with
  | nil => rfl
  | cons e rest ih =>
    simp only [List.map_cons, List.mem_cons] at h
    push_neg at h
    rw [List.filterMap_cons]
    by_cases hd : entryDue now e = true
    · rw [if_pos hd, List.countP_cons]
      have hne : ((dueRecord e.1 e.2).lookup ("job_id")
          == some (PyVal.vStr jid)) = false := by
        rw [dueRecord_lookup_jobId]
        simp [Ne.symm h.1]
      simp only [hne, if_false]
      simpa using ih h.2
    · rw [if_neg hd]
      exact ih h.2

/-- In a collection with unique ids, a due job produces exactly one record
answering to its id. -/
theorem countP_due_one (now : PyDateTime) (jid : String) (job : Job)
    (l : List (String × Job)) (hnd : (l.map Prod.fst).Nodup)
    (hmem : (jid, job) ∈ l) (hdue : entryDue now (jid, job) = true) :
    (checkJobs now l).1.countP
      (fun rec => rec.lookup ("job_id") == some (PyVal.vStr jid)) = 1 := by
  induction l with
  | nil => simp at hmem
  | cons e rest ih =>
    simp only [List.map_cons, List.nodup_cons] at hnd
    rcases List.mem_cons.mp hmem with heq | hrest
    · subst heq
      rw [checkJobs_fst, List.filterMap_cons, if_pos hdue, List.countP_cons]
      have h1 : ((dueRecord jid job).lookup ("job_id")
          == some (PyVal.vStr jid)) = true := by
        rw [dueRecord_lookup_jobId]
        simp
      have h0 := countP_due_zero now jid rest hnd.1
      rw [checkJobs_fst] at h0
      simp [h0, h1]
    · have hkey : e.1 ≠ jid := by
        intro he
        exact hnd.1 (he ▸ List.mem_map_of_mem Prod.fst hrest)
      have ihr := ih hnd.2 hrest
      rw [checkJobs_fst, List.filterMap_cons]
      rw [checkJobs_fst] at ihr
      by_cases hd : entryDue now e = true
      · rw [if_pos hd, List.countP_cons]
        have hne : ((dueRecord e.1 e.2).lookup ("job_id")
            == some (PyVal.vStr jid)) = false := by
          rw [dueRecord_lookup_jobId]
          simp [hkey]
        simp [hne, ihr]
      · rw [if_neg hd]
        exact ihr

theorem lookup_filter_notin (jid : String) (l : List (String × Job))
    (rem : List String) (h : jid ∈ rem) :
    (l.filter (fun e => decide (e.1 ∉ rem))).lookup jid = none := by
  induction l with
  | nil => rfl
  | cons e rest ih =>
    by_cases he : e.1 ∈ rem
    · rw [List.filter_cons, if_neg (by simp [he])]
      exact ih
    · rw [List.filter_cons, if_pos (by simpa using he)]
      have hkey : (jid == e.1) = false := by
        rw [beq_eq_false_iff_ne]
        intro heq
        exact he (heq ▸ h)
      obtain ⟨k, v⟩ := e
      simp only [List.lookup]
      simp only at hkey
      rw [hkey]
      exact ih

theorem notmem_keys_filter (jid : String) (l : List (String × Job))
    (rem : List String) (h : jid ∈ rem) :
    jid ∉ (l.filter (fun e => decide (e.1 ∉ rem))).map Prod.fst := by
  intro hmem
  obtain ⟨e, he, hfst⟩ := List.mem_map.mp hmem
  have hf := (List.mem_filter.mp he).2
  rw [hfst] at hf
  simp at hf
  exact hf h

/-- C3: a once job 10 minutes past due is reported exactly once, retired,
and the retirement is persisted; a later `check` against the persisted
collection no longer reports it.  All retirements of one evaluation are
covered by one conditional write, performed exactly when at least one
retirement occurred. -/
theorem once_job_retirement (jobs : List (String × Job)) (now now2 : PyDateTime)
    (jid : String) (job : Job) (r : List Char) (rt : PyDateTime)
    (hnd : (jobs.map Prod.fst).Nodup)
    (hmem : (jid, job) ∈ jobs)
    (hrun : job.run_at = some r)
    (hparse : runAtParse r = some rt)
    (hdiff : epochSeconds now - epochSeconds rt = 600)
    (honce : job.once = some true)
    (hen : job.enabled.getD true = true) :
    ((checkAction jobs now).jobsToRun.countP
      (fun rec => rec.lookup ("job_id") == some (PyVal.vStr jid)) = 1)
    ∧ jid ∈ (checkAction jobs now).removed
    ∧ (checkAction jobs now).persisted = true
    ∧ (checkAction jobs now).finalJobs.lookup jid = none
    ∧ ((checkAction (checkAction jobs now).finalJobs now2).jobsToRun.countP
      (fun rec => rec.lookup ("job_id") == some (PyVal.vStr jid)) = 0)
    ∧ (∀ (js : List (String × Job)) (n : PyDateTime),
        (checkAction js n).persisted = decide ((checkAction js n).removed ≠ [])
        ∧ ((checkAction js n).removed = [] → (checkAction js n).finalJobs = js)
        ∧ ((checkAction js n).removed ≠ [] → (checkAction js n).finalJobs
            = js.filter (fun e => decide (e.1 ∉ (checkAction js n).removed)))) := by
  have hhit : jobRunAtHit job now = true := by
    simp only [jobRunAtHit, hrun]
    rw [if_neg (runAtParse_ne_nil hparse)]
    simp [runAtMatches, runAtMatchesE, hparse, hdiff]
  have hdue : entryDue now (jid, job) = true := by
    simp [entryDue, hen, hhit]
  have hret : entryRetire now (jid, job) = true := by
    simp [entryRetire, hen, hhit, honce]
  have hrem : jid ∈ (checkAction jobs now).removed := by
    simp only [checkAction, checkJobs_snd]
    exact List.mem_filterMap.mpr ⟨(jid, job), hmem, by rw [if_pos hret]⟩
  have hremne : (checkJobs now jobs).2 ≠ [] := by
    intro he
    simp only [checkAction] at hrem
    rw [he] at hrem
    exact List.not_mem_nil jid hrem
  have hfinal : (checkAction jobs now).finalJobs
      = jobs.filter (fun e => decide (e.1 ∉ (checkJobs now jobs).2)) := by
    simp [checkAction, hremne]
  refine ⟨?_, hrem, ?_, ?_, ?_, ?_⟩
  · exact countP_due_one now jid job jobs hnd hmem hdue
  · simp [checkAction, hremne]
  · rw [hfinal]
    exact lookup_filter_notin jid jobs (checkJobs now jobs).2
      (by simpa [checkAction] using hrem)
  · have hkeys := notmem_keys_filter jid jobs (checkJobs now jobs).2
      (by simpa [checkAction] using hrem)
    rw [hfinal]
    exact countP_due_zero now2 jid _ hkeys
  · intro js n
    refine ⟨rfl, ?_, ?_⟩
    · intro h
      simp only [checkAction] at h ⊢
      simp [h]
    · intro h
      simp only [checkAction] at h ⊢
      simp [h]

/-- Witness for C3 at a one-job collection with
`run_at = now - 10 minutes`. -/
theorem once_job_retirement_witness :
    ((checkAction [(("j1"), sampleOnceJob)] sampleNow).jobsToRun.countP
      (fun rec => rec.lookup ("job_id") == some (PyVal.vStr ("j1"))) = 1)
    ∧ ("j1") ∈ (checkAction [(("j1"), sampleOnceJob)] sampleNow).removed
    ∧ (checkAction [(("j1"), sampleOnceJob)] sampleNow).persisted = true
    ∧ (checkAction [(("j1"), sampleOnceJob)] sampleNow).finalJobs.lookup ("j1")
        = none
    ∧ ((checkAction
        (checkAction [(("j1"), sampleOnceJob)] sampleNow).finalJobs
        ⟨2024, 1, 20, 15, 0, 0⟩).jobsToRun.countP
      (fun rec => rec.lookup ("job_id") == some (PyVal.vStr ("j1"))) = 0) := by
  have h := once_job_retirement [(("j1"), sampleOnceJob)] sampleNow
    ⟨2024, 1, 20, 15, 0, 0⟩ ("j1") sampleOnceJob
    (("2024-01-20T14:00:00Z").data) ⟨2024, 1, 20, 14, 0, 0⟩
    (by decide) (by decide) rfl (by decide) (by decide) rfl rfl
  exact ⟨h.1, h.2.1, h.2.2.1, h.2.2.2.1, h.2.2.2.2.1⟩

/-! ## Claim C10: cron-only jobs are never retired by `check` -/

theorem jobRunAtHit_elim {job : Job} {now : PyDateTime}
    (h : jobRunAtHit job now = true) :
    ∃ r, job.run_at = some r ∧ r ≠ [] ∧ runAtMatches r now = true := by
  cases hr : job.run_at with
  | none =>
    simp only [jobRunAtHit, hr] at h
    exact Bool.noConfusion h
  | some r =>
    simp only [jobRunAtHit, hr] at h
    by_cases he : r = []
    · rw [if_pos he] at h
      exact Bool.noConfusion h
    · rw [if_neg he] at h
      exact ⟨r, rfl, he, h⟩

theorem nodup_key_unique {l : List (String × Job)}
    (hnd : (l.map Prod.fst).Nodup) {k : String} {a b : Job}
    (ha : (k, a) ∈ l) (hb : (k, b) ∈ l) : a = b := by
  induction l with
  | nil => simp at ha
  | cons e rest ih =>
    simp only [List.map_cons, List.nodup_cons] at hnd
    rcases List.mem_cons.mp ha with rfl | ha'
    · rcases List.mem_cons.mp hb with heq | hb'
      · injection heq with h1 h2
        exact h2.symm
      · exact absurd (List.mem_map_of_mem Prod.fst hb') hnd.1
    · rcases List.mem_cons.mp hb with rfl | hb'
      · exact absurd (List.mem_map_of_mem Prod.fst ha') hnd.1
      · exact ih hnd.2 ha' hb'

/-- A removed id always comes from an enabled entry whose `run_at` string
is present, truthy, matching, with a truthy `once`. -/
theorem removed_elim {jobs : List (String × Job)} {now : PyDateTime}
    {jid : String} (h : jid ∈ (checkAction jobs now).removed) :
    ∃ job, (jid, job) ∈ jobs ∧ ∃ r, job.run_at = some r ∧ r ≠ []
      ∧ runAtMatches r now = true ∧ job.once.getD false = true := by
  simp only [checkAction, checkJobs_snd] at h
  obtain ⟨e, he, hcond⟩ := List.mem_filterMap.mp h
  by_cases hret : entryRetire now e = true
  · rw [if_pos hret] at hcond
    obtain ⟨k, job⟩ := e
    obtain rfl : k = jid := Option.some.inj hcond
    simp only [entryRetire, Bool.and_eq_true] at hret
    obtain ⟨r, hr, hne, hmat⟩ := jobRunAtHit_elim hret.2.1
    exact ⟨job, he, r, hr, hne, hmat, hret.2.2⟩
  · rw [if_neg hret] at hcond
    exact absurd hcond Option.noConfusion

/-- C10: adding a job with a cron trigger, `once=True` and no `run_at`
stores no `once` flag; `check` removes ids only via the run_at match path;
and a job without `run_at` always survives `check`. -/
theorem cron_only_never_removed :
    (∀ inp : AddInput, truthyL inp.cron = true → inp.once = true →
      inp.run_at = none → (mkJob inp).once = none)
    ∧ (∀ (jobs : List (String × Job)) (now : PyDateTime) jid,
        jid ∈ (checkAction jobs now).removed →
        ∃ job, (jid, job) ∈ jobs ∧ ∃ r, job.run_at = some r ∧ r ≠ []
          ∧ runAtMatches r now = true ∧ job.once.getD false = true)
    ∧ (∀ (jobs : List (String × Job)) (now : PyDateTime) jid job,
        (jobs.map Prod.fst).Nodup → (jid, job) ∈ jobs → job.run_at = none →
        (jid, job) ∈ (checkAction jobs now).finalJobs) := by
  refine ⟨?_, ?_, ?_⟩
  · intro inp _ _ hrn
    simp [mkJob, hrn, truthyL]
  · intro jobs now jid h
    exact removed_elim h
  · intro jobs now jid job hnd hmem hrn
    have hnotrem : jid ∉ (checkAction jobs now).removed := by
      intro hin
      obtain ⟨job', hmem', r, hr, _, _, _⟩ := removed_elim hin
      rw [nodup_key_unique hnd hmem hmem'] at hrn
      rw [hrn] at hr
      exact Option.noConfusion hr
    by_cases hrem : (checkJobs now jobs).2 = []
    · simp [checkAction, hrem]
      exact hmem
    · simp only [checkAction, if_neg hrem]
      refine List.mem_filter.mpr ⟨hmem, ?_⟩
      simpa [checkAction] using hnotrem

/-- A concrete cron-only job. -/
def sampleCronJob : Job :=
  ⟨some (("0 9 * * *").data), none, none, some true, some ("review"),
   none, none, none, none, none⟩

/-- Witness for C10 at concrete inputs: an `add` input with a cron trigger
and `once=True`, a retired once job, and a surviving cron-only job. -/
theorem cron_only_never_removed_witness :
    ((mkJob ⟨some ("c1"), some (("0 9 * * *").data), none, true,
        some ("p"), none, none, none, none, none⟩).once = none)
    ∧ (∃ job, (("j1"), job) ∈ [(("j1"), sampleOnceJob)]
        ∧ ∃ r, job.run_at = some r ∧ r ≠ []
          ∧ runAtMatches r sampleNow = true ∧ job.once.getD false = true)
    ∧ (("c1"), sampleCronJob)
        ∈ (checkAction [(("c1"), sampleCronJob)] sampleNow).finalJobs :=
  ⟨cron_only_never_removed.1
    ⟨some ("c1"), some (("0 9 * * *").data), none, true,
      some ("p"), none, none, none, none, none⟩ (by decide) rfl rfl,
   cron_only_never_removed.2.1 [(("j1"), sampleOnceJob)] sampleNow ("j1")
     (by decide),
   cron_only_never_removed.2.2 [(("c1"), sampleCronJob)] sampleNow ("c1")
     sampleCronJob (by decide) (by decide) rfl⟩

/-! ## Claim C4: `add` upserts wholesale and re-enables -/

theorem lookup_alistInsert (k : String) (v : Job) (l : List (String × Job)) :
    (alistInsert k v l).lookup k = some v := by
  induction l with
  | nil => simp [alistInsert, List.lookup]
  | cons e rest ih =>
    obtain ⟨k', v'⟩ := e
    by_cases h : k' = k
    · subst h
      simp [alistInsert, List.lookup]
    · simp only [alistInsert, if_neg h, List.lookup]
      rw [show (k == k') = false from beq_eq_false_iff_ne.mpr (Ne.symm h)]
      exact ih

/-- C4: a validating `add` writes back the collection with the stored job
built from the input alone (no field-level merge with any prior job under
the same id) and `enabled = True` unconditionally; `get` then returns that
job, equal to the input in every explicitly-set field, irrespective of the
prior collection. -/
theorem add_upsert_roundtrip (inp : AddInput) (coll : List (String × Job))
    (jid : String)
    (hjid : inp.job_id = some jid) (hjidT : jid ≠ "")
    (hp : truthyS inp.prompt = true)
    (htrig : truthyL inp.cron = true ∨ truthyL inp.run_at = true)
    (hcron : truthyL inp.cron = true →
      (splitWhitespace (inp.cron.getD [])).length = 5)
    (hrun : truthyL inp.run_at = true →
      (runAtParse (inp.run_at.getD [])).isNone = false) :
    (addAction inp coll
      = ⟨"success", "added", some (alistInsert jid (mkJob inp) coll)⟩)
    ∧ getAction jid (alistInsert jid (mkJob inp) coll)
        = GetResult.found (mkJob inp)
    ∧ (mkJob inp).enabled = some true
    ∧ (mkJob inp).prompt = inp.prompt
    ∧ (truthyL inp.cron = true → (mkJob inp).cron = inp.cron)
    ∧ (truthyL inp.run_at = true → (mkJob inp).run_at = inp.run_at)
    ∧ (truthyL inp.run_at = true → inp.once = true →
        (mkJob inp).once = some true)
    ∧ (truthyS inp.system_prompt = true →
        (mkJob inp).system_prompt = inp.system_prompt)
    ∧ (truthyS inp.tools = true → (mkJob inp).tools = inp.tools)
    ∧ (truthyS inp.model = true → (mkJob inp).model = inp.model)
    ∧ (truthyI inp.max_tokens = true → (mkJob inp).max_tokens = inp.max_tokens)
    ∧ (truthyS inp.context = true → (mkJob inp).context = inp.context) := by
  have h1 : truthyS inp.job_id = true := by
    rw [hjid]
    simp [truthyS, hjidT]
  refine ⟨?_, ?_, rfl, rfl, ?_, ?_, ?_, ?_, ?_, ?_, ?_, ?_⟩
  · unfold addAction
    rw [if_neg (by simp [h1])]
    rw [if_neg (by
      intro hc
      rcases htrig with h | h
      · rw [h] at hc
        exact Bool.noConfusion hc.1
      · rw [h] at hc
        exact Bool.noConfusion hc.2)]
    rw [if_neg (by simp [hp])]
    rw [if_neg (by
      intro hc
      exact hc.2 (hcron hc.1))]
    rw [if_neg (by
      intro hc
      rw [hrun hc.1] at hc
      exact Bool.noConfusion hc.2)]
    rw [hjid]
    rfl
  · unfold getAction
    rw [lookup_alistInsert]
  · intro h
    simp [mkJob, h]
  · intro h
    simp [mkJob, h]
  · intro h ho
    simp [mkJob, h, ho]
  · intro h
    simp [mkJob, h]
  · intro h
    simp [mkJob, h]
  · intro h
    simp [mkJob, h]
  · intro h
    simp [mkJob, h]
  · intro h
    simp [mkJob, h]

/-- A concrete `add` input setting every optional payload field. -/
def sampleAddInput : AddInput :=
  ⟨some ("daily"), some (("0 9 * * *").data), none, false,
   some ("review PRs"), some ("sys"), some ("bash"), some ("model-x"),
   some 1000, some ("ctx")⟩

/-- A concrete prior job under the same id, disabled. -/
def sampleOldJob : Job :=
  ⟨some (("5 5 * * *").data), none, none, some false, some ("old"),
   none, none, none, none, none⟩

/-- Witness for C4: re-adding over a disabled job under the same id. -/
theorem add_upsert_roundtrip_witness :
    (addAction sampleAddInput [(("daily"), sampleOldJob)]
      = ⟨"success", "added",
         some (alistInsert ("daily") (mkJob sampleAddInput)
           [(("daily"), sampleOldJob)])⟩)
    ∧ getAction ("daily")
        (alistInsert ("daily") (mkJob sampleAddInput)
          [(("daily"), sampleOldJob)])
        = GetResult.found (mkJob sampleAddInput)
    ∧ (mkJob sampleAddInput).enabled = some true
    ∧ (mkJob sampleAddInput).prompt = sampleAddInput.prompt := by
  have h := add_upsert_roundtrip sampleAddInput [(("daily"), sampleOldJob)]
    ("daily") rfl (by decide) (by decide) (Or.inl (by decide))
    (fun _ => by decide) (fun hc => by exact absurd hc (by decide))
  exact ⟨h.1, h.2.1, h.2.2.1, h.2.2.2.1⟩

/-! ## Claim C6: `add` validation failures -/

/-- Splitting the empty string yields no fields. -/
theorem splitWhitespace_nil : splitWhitespace [] = [] := rfl

/-- C6: `add` returns an error status, stores nothing and persists nothing
when neither `cron` nor `run_at` is given, when `prompt` is missing or
empty, or when the cron string has 4 fields instead of 5. -/
theorem add_validation (inp : AddInput) (coll : List (String × Job)) :
    (truthyS inp.job_id = true → truthyL inp.cron = false →
      truthyL inp.run_at = false →
      addAction inp coll
        = ⟨"error", "Error: Either cron or run_at is required", none⟩)
    ∧ (truthyS inp.job_id = true →
        (truthyL inp.cron = true ∨ truthyL inp.run_at = true) →
        truthyS inp.prompt = false →
        addAction inp coll = ⟨"error", "Error: prompt is required", none⟩)
    ∧ (∀ c, truthyS inp.job_id = true → inp.cron = some c →
        truthyS inp.prompt = true → (splitWhitespace c).length = 4 →
        addAction inp coll
          = ⟨"error", "Error: Invalid cron expression: " ++ String.mk c
              ++ " (expected 5 fields)", none⟩) := by
  refine ⟨?_, ?_, ?_⟩
  · intro hj hc hr
    unfold addAction
    rw [if_neg (by simp [hj])]
    rw [if_pos ⟨hc, hr⟩]
  · intro hj htrig hp
    unfold addAction
    rw [if_neg (by simp [hj])]
    rw [if_neg (by
      intro hc
      rcases htrig with h | h
      · rw [h] at hc
        exact Bool.noConfusion hc.1
      · rw [h] at hc
        exact Bool.noConfusion hc.2)]
    rw [if_pos (by simp [hp])]
  · intro c hj hc hp hlen
    have hcne : c ≠ [] := by
      intro he
      rw [he, splitWhitespace_nil] at hlen
      exact Nat.noConfusion hlen
    have hct : truthyL inp.cron = true := by
      rw [hc]
      simp [truthyL, hcne]
    unfold addAction
    rw [if_neg (by simp [hj])]
    rw [if_neg (by
      intro hcc
      rw [hct] at hcc
      exact Bool.noConfusion hcc.1)]
    rw [if_neg (by simp [hp])]
    rw [if_pos ⟨hct, by rw [hc]; simp [hlen]⟩]
    rw [hc]
    rfl

/-- Witness for C6 at three concrete invalid `add` calls. -/
theorem add_validation_witness :
    (addAction ⟨some ("j"), none, none, false, some ("p"), none, none, none,
        none, none⟩ []
      = ⟨"error", "Error: Either cron or run_at is required", none⟩)
    ∧ (addAction ⟨some ("j"), some (("0 9 * * *").data), none, false, none,
        none, none, none, none, none⟩ []
      = ⟨"error", "Error: prompt is required", none⟩)
    ∧ (addAction ⟨some ("j"), some (("0 9 * *").data), none, false,
        some ("p"), none, none, none, none, none⟩ []
      = ⟨"error", "Error: Invalid cron expression: "
          ++ String.mk (("0 9 * *").data) ++ " (expected 5 fields)", none⟩) :=
  ⟨(add_validation ⟨some ("j"), none, none, false, some ("p"), none, none,
      none, none, none⟩ []).1 (by decide) rfl rfl,
   (add_validation ⟨some ("j"), some (("0 9 * * *").data), none, false, none,
      none, none, none, none, none⟩ []).2.1 (by decide)
      (Or.inl (by decide)) rfl,
   (add_validation ⟨some ("j"), some (("0 9 * *").data), none, false,
      some ("p"), none, none, none, none, none⟩ []).2.2
      (("0 9 * *").data) (by decide) rfl (by decide) (by decide)⟩

/-! ## Claim C8: `update_item` field and option lookup -/

theorem findField_none {fieldName : String} {fields : List PField}
    (h : fieldName ∉ fields.map PField.name) :
    findField fieldName fields = none := by
  induction fields with
  | nil => rfl
  | cons f rest ih =>
    simp only [List.map_cons, List.mem_cons] at h
    push_neg at h
    rw [findField, if_neg (fun he => h.1 he.symm)]
    exact ih h.2

theorem findField_some_name {fieldName : String} {fields : List PField}
    {f : PField} (h : findField fieldName fields = some f) :
    f.name = fieldName := by
  induction fields with
  | nil => exact Option.noConfusion h
  | cons g rest ih =>
    rw [findField] at h
    split at h
    case isTrue hg =>
      obtain rfl := Option.some.inj h
      exact hg
    case isFalse => exact ih h

theorem findOption_none {v : String} {opts : List FieldOption}
    (h : v ∉ opts.map FieldOption.name) : findOption v opts = none := by
  induction opts with
  | nil => rfl
  | cons o rest ih =>
    simp only [List.map_cons, List.mem_cons] at h
    push_neg at h
    rw [findOption, if_neg (fun he => h.1 he.symm)]
    exact ih h.2

/-- C8: `update_item` matches the field name by exact case-sensitive string
equality; a missing field produces an error listing all fetched field names
verbatim; on a SINGLE_SELECT field an unknown value produces an error
listing the field's option names verbatim, and a known value sends the
matched option's id (not its name) under `singleSelectOptionId`. -/
theorem update_item_spec (fields : List PField) (fieldName fieldValue : String) :
    (fieldName ∉ fields.map PField.name →
      updateItem fields fieldName fieldValue
        = UpdateResult.failed ("Field '" ++ fieldName ++ "' not found. Available: "
            ++ joinComma (fields.map PField.name)))
    ∧ (∀ f, findField fieldName fields = some f → f.name = fieldName)
    ∧ (∀ f, findField fieldName fields = some f →
        f.dataType = "SINGLE_SELECT" →
        fieldValue ∉ (f.options.getD []).map FieldOption.name →
        updateItem fields fieldName fieldValue
          = UpdateResult.failed ("Option '" ++ fieldValue
              ++ "' not found. Available: "
              ++ joinComma ((f.options.getD []).map FieldOption.name)))
    ∧ (∀ f oid, findField fieldName fields = some f →
        f.dataType = "SINGLE_SELECT" →
        findOption fieldValue (f.options.getD []) = some oid → oid ≠ "" →
        updateItem fields fieldName fieldValue
          = UpdateResult.done ⟨f.fid, PyVal.vStr oid, "singleSelectOptionId"⟩) := by
  refine ⟨?_, ?_, ?_, ?_⟩
  · intro h
    simp [updateItem, findField_none h]
  · intro f h
    exact findField_some_name h
  · intro f hf hdt hv
    simp [updateItem, hf, hdt, findOption_none hv]
  · intro f oid hf hdt hopt hne
    simp [updateItem, hf, hdt, hopt, hne]

/-- A concrete fetched field list: a SINGLE_SELECT Status field and a TEXT
field. -/
def sampleFields : List PField :=
  [⟨"Status", "F1", "SINGLE_SELECT", some [⟨"Todo", "O1"⟩, ⟨"Done", "O2"⟩]⟩,
   ⟨"Priority", "F2", "TEXT", none⟩]

/-- Witness for C8: a case-mismatched field name fails with the verbatim
field list, an unknown option fails with the verbatim option list, and a
known option sends its id. -/
theorem update_item_spec_witness :
    (updateItem sampleFields ("status") ("Done")
      = UpdateResult.failed ("Field '" ++ ("status")
          ++ "' not found. Available: "
          ++ joinComma (sampleFields.map PField.name)))
    ∧ (updateItem sampleFields ("Status") ("Doing")
      = UpdateResult.failed ("Option '" ++ ("Doing")
          ++ "' not found. Available: "
          ++ joinComma ((((sampleFields.get ⟨0, by decide⟩).options).getD []).map
              FieldOption.name)))
    ∧ (updateItem sampleFields ("Status") ("Done")
      = UpdateResult.done ⟨"F1", PyVal.vStr ("O2"), "singleSelectOptionId"⟩) :=
  ⟨(update_item_spec sampleFields ("status") ("Done")).1 (by decide),
   (update_item_spec sampleFields ("Status") ("Doing")).2.2.1
     (sampleFields.get ⟨0, by decide⟩) (by decide) rfl (by decide),
   (update_item_spec sampleFields ("Status") ("Done")).2.2.2
     (sampleFields.get ⟨0, by decide⟩) ("O2") (by decide) rfl (by decide)
     (by decide)⟩

/-! ## Claim C9: `get_progress` counting and Status histogram -/

theorem progressStep_archived (acc : Progress) (a : Item)
    (h : a.isArchived = true) :
    progressStep acc a = ⟨acc.issuesOpen, acc.issuesClosed, acc.prsOpen,
      acc.prsMerged, acc.prsClosed, acc.drafts, acc.archived + 1,
      acc.byStatus⟩ := by
  simp [progressStep, h]

theorem progressStep_open_issue (acc : Progress) (i : Item)
    (h1 : i.isArchived = false) (h2 : i.itemType = "ISSUE")
    (h3 : i.state = "OPEN") :
    progressStep acc i = ⟨acc.issuesOpen + 1, acc.issuesClosed, acc.prsOpen,
      acc.prsMerged, acc.prsClosed, acc.drafts, acc.archived,
      countStatus i acc.byStatus⟩ := by
  simp [progressStep, h1, h2, h3]

theorem progressStep_closed_issue (acc : Progress) (i : Item)
    (h1 : i.isArchived = false) (h2 : i.itemType = "ISSUE")
    (h3 : i.state ≠ "OPEN") :
    progressStep acc i = ⟨acc.issuesOpen, acc.issuesClosed + 1, acc.prsOpen,
      acc.prsMerged, acc.prsClosed, acc.drafts, acc.archived,
      countStatus i acc.byStatus⟩ := by
  simp [progressStep, h1, h2, h3]

theorem progressStep_merged_pr (acc : Progress) (i : Item)
    (h1 : i.isArchived = false) (h2 : i.itemType = "PULL_REQUEST")
    (h3 : i.state = "MERGED") :
    progressStep acc i = ⟨acc.issuesOpen, acc.issuesClosed, acc.prsOpen,
      acc.prsMerged + 1, acc.prsClosed, acc.drafts, acc.archived,
      countStatus i acc.byStatus⟩ := by
  simp [progressStep, h1, h2, h3]

/-- The step `progressStep` never reads `archived`, so pre-incrementing it
commutes. -/
theorem progressStep_addArchived (acc : Progress) (i : Item) :
    progressStep ⟨acc.issuesOpen, acc.issuesClosed, acc.prsOpen,
      acc.prsMerged, acc.prsClosed, acc.drafts, acc.archived + 1,
      acc.byStatus⟩ i
    = ⟨(progressStep acc i).issuesOpen, (progressStep acc i).issuesClosed,
       (progressStep acc i).prsOpen, (progressStep acc i).prsMerged,
       (progressStep acc i).prsClosed, (progressStep acc i).drafts,
       (progressStep acc i).archived + 1, (progressStep acc i).byStatus⟩ := by
  by_cases h1 : i.isArchived = true
  · simp [progressStep, h1]
  · by_cases h2 : i.itemType = "ISSUE"
    · by_cases h3 : i.state = "OPEN"
      · simp [progressStep, h1, h2, h3]
      · simp [progressStep, h1, h2, h3]
    · by_cases h4 : i.itemType = "PULL_REQUEST"
      · by_cases h5 : i.state = "MERGED"
        · simp [progressStep, h1, h2, h4, h5]
        · by_cases h6 : i.state = "OPEN"
          · simp [progressStep, h1, h2, h4, h5, h6]
          · simp [progressStep, h1, h2, h4, h5, h6]
      · by_cases h7 : i.itemType = "DRAFT_ISSUE"
        · simp [progressStep, h1, h2, h4, h7]
        · simp [progressStep, h1, h2, h4, h7]

theorem foldl_progress_addArchived (items : List Item) (acc : Progress) :
    items.foldl progressStep ⟨acc.issuesOpen, acc.issuesClosed, acc.prsOpen,
      acc.prsMerged, acc.prsClosed, acc.drafts, acc.archived + 1,
      acc.byStatus⟩
    = ⟨(items.foldl progressStep acc).issuesOpen,
       (items.foldl progressStep acc).issuesClosed,
       (items.foldl progressStep acc).prsOpen,
       (items.foldl progressStep acc).prsMerged,
       (items.foldl progressStep acc).prsClosed,
       (items.foldl progressStep acc).drafts,
       (items.foldl progressStep acc).archived + 1,
       (items.foldl progressStep acc).byStatus⟩ := by
  induction items generalizing acc with
  | nil => rfl
  | cons i rest ih =>
    simp only [List.foldl_cons]
    rw [progressStep_addArchived]
    exact ih (progressStep acc i)

theorem lookup_setZero_self (k : String) (m : List (String × Nat)) :
    (setZero k m).lookup k = some 0 := by
  induction m with
  | nil => simp [setZero, List.lookup]
  | cons e rest ih =>
    obtain ⟨k', v⟩ := e
    by_cases h : k' = k
    · subst h
      simp [setZero, List.lookup]
    · simp only [setZero, if_neg h, List.lookup]
      rw [show (k == k') = false from beq_eq_false_iff_ne.mpr (Ne.symm h)]
      exact ih

theorem lookup_setZero_ne (k x : String) (m : List (String × Nat))
    (h : x ≠ k) : (setZero k m).lookup x = m.lookup x := by
  induction m with
  | nil =>
    simp only [setZero, List.lookup]
    rw [show (x == k) = false from beq_eq_false_iff_ne.mpr h]
  | cons e rest ih =>
    obtain ⟨k', v⟩ := e
    by_cases hk : k' = k
    · subst hk
      simp only [setZero, if_pos rfl, List.lookup]
      rw [show (x == k') = false from beq_eq_false_iff_ne.mpr h]
    · simp only [setZero, if_neg hk, List.lookup]
      cases hxe : (x == k')
      · exact ih
      · rfl

theorem lookup_bump_isSome {m : List (String × Nat)} {x : String} (k : String)
    (h : (m.lookup x).isSome = true) :
    ((bump k m).lookup x).isSome = true := by
  induction m with
  | nil =>
    simp only [List.lookup] at h
    exact Bool.noConfusion h
  | cons e rest ih =>
    obtain ⟨k', v⟩ := e
    by_cases hk : k' = k
    · subst hk
      simp only [bump, if_pos rfl, List.lookup] at h ⊢
      cases hxe : (x == k')
      · simp only [hxe] at h ⊢
        exact h
      · rfl
    · simp only [bump, if_neg hk, List.lookup] at h ⊢
      cases hxe : (x == k')
      · simp only [hxe] at h ⊢
        exact ih h
      · rfl

theorem foldl_bump_isSome (fvs : List ItemFieldValue)
    (m : List (String × Nat)) (x : String)
    (h : (m.lookup x).isSome = true) :
    ((fvs.foldl
      (fun acc fv =>
        if fv.fieldName = some ("Status") ∧ fv.valueName.getD ("") ≠ "" then
          bump (fv.valueName.getD ("")) acc
        else acc) m).lookup x).isSome = true := by
  induction fvs generalizing m with
  | nil => exact h
  | cons fv rest ih =>
    simp only [List.foldl_cons]
    by_cases hc : (fv.fieldName = some ("Status") ∧ fv.valueName.getD ("") ≠ "")
    · rw [if_pos hc]
      exact ih _ (lookup_bump_isSome _ h)
    · rw [if_neg hc]
      exact ih _ h

theorem countStatus_isSome (i : Item) (m : List (String × Nat)) (x : String)
    (h : (m.lookup x).isSome = true) :
    ((countStatus i m).lookup x).isSome = true := by
  unfold countStatus
  exact foldl_bump_isSome i.fieldValues m x h

/-- The step `progressStep` transforms the histogram exactly by `countStatus`, and
not at all for archived items. -/
theorem progressStep_byStatus (acc : Progress) (i : Item) :
    (progressStep acc i).byStatus
      = if i.isArchived = true then acc.byStatus
        else countStatus i acc.byStatus := by
  by_cases h1 : i.isArchived = true
  · simp [progressStep, h1]
  · by_cases h2 : i.itemType = "ISSUE"
    · by_cases h3 : i.state = "OPEN"
      · simp [progressStep, h1, h2, h3]
      · simp [progressStep, h1, h2, h3]
    · by_cases h4 : i.itemType = "PULL_REQUEST"
      · by_cases h5 : i.state = "MERGED"
        · simp [progressStep, h1, h2, h4, h5]
        · by_cases h6 : i.state = "OPEN"
          · simp [progressStep, h1, h2, h4, h5, h6]
          · simp [progressStep, h1, h2, h4, h5, h6]
      · by_cases h7 : i.itemType = "DRAFT_ISSUE"
        · simp [progressStep, h1, h2, h4, h7]
        · simp [progressStep, h1, h2, h4, h7]

theorem progressStep_byStatus_isSome (acc : Progress) (i : Item) (x : String)
    (h : (acc.byStatus.lookup x).isSome = true) :
    (((progressStep acc i).byStatus).lookup x).isSome = true := by
  rw [progressStep_byStatus]
  by_cases h1 : i.isArchived = true
  · rw [if_pos h1]
    exact h
  · rw [if_neg h1]
    exact countStatus_isSome i acc.byStatus x h

theorem foldl_progressStep_byStatus_isSome (items : List Item)
    (acc : Progress) (x : String)
    (h : (acc.byStatus.lookup x).isSome = true) :
    (((items.foldl progressStep acc).byStatus).lookup x).isSome = true := by
  induction items generalizing acc with
  | nil => exact h
  | cons i rest ih =>
    simp only [List.foldl_cons]
    exact ih _ (progressStep_byStatus_isSome acc i x h)

theorem foldl_setZero_keeps_zero (opts : List FieldOption)
    (init : List (String × Nat)) (x : String) (h : init.lookup x = some 0) :
    (opts.foldl (fun m oo => setZero oo.name m) init).lookup x = some 0 := by
  induction opts generalizing init with
  | nil => exact h
  | cons p rest ih =>
    simp only [List.foldl_cons]
    apply ih
    by_cases he : x = p.name
    · subst he
      exact lookup_setZero_self _ _
    · rw [lookup_setZero_ne _ _ _ he]
      exact h

theorem foldl_setZero_lookup (opts : List FieldOption)
    (init : List (String × Nat)) (o : FieldOption) (hmem : o ∈ opts) :
    (opts.foldl (fun m oo => setZero oo.name m) init).lookup o.name
      = some 0 := by
  induction opts generalizing init with
  | nil => simp at hmem
  | cons p rest ih =>
    by_cases hin : o ∈ rest
    · simp only [List.foldl_cons]
      exact ih _ hin
    · have heq : o = p := by
        rcases List.mem_cons.mp hmem with h | h
        · exact h
        · exact absurd h hin
      subst heq
      simp only [List.foldl_cons]
      exact foldl_setZero_keeps_zero rest _ o.name (lookup_setZero_self _ _)

theorem initStatusCounts_lookup (fields : List PField) (f : PField)
    (opts : List FieldOption) (o : FieldOption)
    (hf : findField ("Status") fields = some f) (ho : f.options = some opts)
    (hmem : o ∈ opts) :
    (initStatusCounts fields).lookup o.name = some 0 := by
  simp only [initStatusCounts, hf, ho]
  exact foldl_setZero_lookup opts [] o hmem

/-- C9: on 3 open issues, 1 closed issue, 2 merged PRs and 1 archived item,
`get_progress` counts `issues.open = 3`, `issues.total = 4`,
`pull_requests.merged = 2`; an archived item anywhere in the list only
increments `archived`, leaving every other count and the histogram exactly
as without it; and the Status histogram carries every declared option of
the Status field, with count 0 when no item uses it. -/
theorem get_progress_spec :
    (∀ (fields : List PField) (i1 i2 i3 i4 i5 i6 i7 : Item),
      (i1.isArchived = false ∧ i1.itemType = "ISSUE" ∧ i1.state = "OPEN") →
      (i2.isArchived = false ∧ i2.itemType = "ISSUE" ∧ i2.state = "OPEN") →
      (i3.isArchived = false ∧ i3.itemType = "ISSUE" ∧ i3.state = "OPEN") →
      (i4.isArchived = false ∧ i4.itemType = "ISSUE" ∧ i4.state = "CLOSED") →
      (i5.isArchived = false ∧ i5.itemType = "PULL_REQUEST"
        ∧ i5.state = "MERGED") →
      (i6.isArchived = false ∧ i6.itemType = "PULL_REQUEST"
        ∧ i6.state = "MERGED") →
      i7.isArchived = true →
      ((getProgress fields [i1, i2, i3, i4, i5, i6, i7]).issuesOpen = 3
       ∧ (getProgress fields [i1, i2, i3, i4, i5, i6, i7]).issuesClosed = 1
       ∧ (getProgress fields [i1, i2, i3, i4, i5, i6, i7]).issuesOpen
           + (getProgress fields [i1, i2, i3, i4, i5, i6, i7]).issuesClosed = 4
       ∧ (getProgress fields [i1, i2, i3, i4, i5, i6, i7]).prsMerged = 2
       ∧ (getProgress fields [i1, i2, i3, i4, i5, i6, i7]).prsOpen = 0
       ∧ (getProgress fields [i1, i2, i3, i4, i5, i6, i7]).prsClosed = 0
       ∧ (getProgress fields [i1, i2, i3, i4, i5, i6, i7]).drafts = 0
       ∧ (getProgress fields [i1, i2, i3, i4, i5, i6, i7]).archived = 1))
    ∧ (∀ (fields : List PField) (l1 l2 : List Item) (a : Item),
        a.isArchived = true →
        getProgress fields (l1 ++ a :: l2)
          = ⟨(getProgress fields (l1 ++ l2)).issuesOpen,
             (getProgress fields (l1 ++ l2)).issuesClosed,
             (getProgress fields (l1 ++ l2)).prsOpen,
             (getProgress fields (l1 ++ l2)).prsMerged,
             (getProgress fields (l1 ++ l2)).prsClosed,
             (getProgress fields (l1 ++ l2)).drafts,
             (getProgress fields (l1 ++ l2)).archived + 1,
             (getProgress fields (l1 ++ l2)).byStatus⟩)
    ∧ (∀ (fields : List PField) (items : List Item) (f : PField)
        (opts : List FieldOption) (o : FieldOption),
        findField ("Status") fields = some f → f.options = some opts →
        o ∈ opts →
        (((getProgress fields items).byStatus).lookup o.name).isSome = true)
    ∧ (∀ (fields : List PField) (f : PField) (opts : List FieldOption)
        (o : FieldOption),
        findField ("Status") fields = some f → f.options = some opts →
        o ∈ opts →
        ((getProgress fields []).byStatus).lookup o.name = some 0) := by
  refine ⟨?_, ?_, ?_, ?_⟩
  · intro fields i1 i2 i3 i4 i5 i6 i7 h1 h2 h3 h4 h5 h6 h7
    have h4' : i4.state ≠ "OPEN" := by
      rw [h4.2.2]
      decide
    unfold getProgress
    simp only [List.foldl_cons, List.foldl_nil]
    rw [progressStep_open_issue _ _ h1.1 h1.2.1 h1.2.2,
      progressStep_open_issue _ _ h2.1 h2.2.1 h2.2.2,
      progressStep_open_issue _ _ h3.1 h3.2.1 h3.2.2,
      progressStep_closed_issue _ _ h4.1 h4.2.1 h4',
      progressStep_merged_pr _ _ h5.1 h5.2.1 h5.2.2,
      progressStep_merged_pr _ _ h6.1 h6.2.1 h6.2.2,
      progressStep_archived _ _ h7]
    simp
  · intro fields l1 l2 a h
    unfold getProgress
    rw [List.foldl_append, List.foldl_cons, progressStep_archived _ _ h,
      foldl_progress_addArchived, List.foldl_append]
  · intro fields items f opts o hf ho hmem
    unfold getProgress
    apply foldl_progressStep_byStatus_isSome
    rw [initStatusCounts_lookup fields f opts o hf ho hmem]
    rfl
  · intro fields f opts o hf ho hmem
    exact initStatusCounts_lookup fields f opts o hf ho hmem

/-- A concrete open issue. -/
def openIssue : Item := ⟨false, "ISSUE", "OPEN", []⟩

/-- A concrete closed issue. -/
def closedIssue : Item := ⟨false, "ISSUE", "CLOSED", []⟩

/-- A concrete merged pull request. -/
def mergedPR : Item := ⟨false, "PULL_REQUEST", "MERGED", []⟩

/-- A concrete archived item. -/
def archivedItem : Item := ⟨true, "ISSUE", "OPEN", []⟩

/-- Witness for C9 at a concrete project. -/
theorem get_progress_spec_witness :
    ((getProgress sampleFields
        [openIssue, openIssue, openIssue, closedIssue, mergedPR, mergedPR,
         archivedItem]).issuesOpen = 3)
    ∧ (getProgress sampleFields
        ([openIssue] ++ archivedItem :: [closedIssue])
      = ⟨(getProgress sampleFields ([openIssue] ++ [closedIssue])).issuesOpen,
         (getProgress sampleFields ([openIssue] ++ [closedIssue])).issuesClosed,
         (getProgress sampleFields ([openIssue] ++ [closedIssue])).prsOpen,
         (getProgress sampleFields ([openIssue] ++ [closedIssue])).prsMerged,
         (getProgress sampleFields ([openIssue] ++ [closedIssue])).prsClosed,
         (getProgress sampleFields ([openIssue] ++ [closedIssue])).drafts,
         (getProgress sampleFields ([openIssue] ++ [closedIssue])).archived + 1,
         (getProgress sampleFields ([openIssue] ++ [closedIssue])).byStatus⟩)
    ∧ ((((getProgress sampleFields [openIssue]).byStatus).lookup
        ("Todo")).isSome = true)
    ∧ (((getProgress sampleFields []).byStatus).lookup ("Todo") = some 0) :=
  ⟨((get_progress_spec.1 sampleFields openIssue openIssue openIssue
      closedIssue mergedPR mergedPR archivedItem
      (by decide) (by decide) (by decide) (by decide) (by decide) (by decide)
      (by decide))).1,
   get_progress_spec.2.1 sampleFields [openIssue] [closedIssue] archivedItem
     (by decide),
   get_progress_spec.2.2.1 sampleFields [openIssue]
     (sampleFields.get ⟨0, by decide⟩) [⟨"Todo", "O1"⟩, ⟨"Done", "O2"⟩]
     ⟨"Todo", "O1"⟩ rfl rfl (by decide),
   get_progress_spec.2.2.2 sampleFields
     (sampleFields.get ⟨0, by decide⟩) [⟨"Todo", "O1"⟩, ⟨"Done", "O2"⟩]
     ⟨"Todo", "O1"⟩ rfl rfl (by decide)⟩

end StrandsCoder
